import Mathlib

/-!
# Verification of the accelerator-card software cache (`src/cache.c`, `src/cache.h`)

Shallow embedding of the cache engine: a set-associative software cache that
sits between a host application and an accelerator's device memory
(OpenCL buffers).  C `int` fields that stay non-negative throughout the
program (counters, cursors, sizes, way indices except the `-1` miss marker)
are modelled as `Nat`; the miss marker returned by `GetWay` is kept as an
`Int` exactly as in the source.  Host addresses (`void*` pointers, compared
by identity) are modelled as natural numbers with `0` playing the role of
`NULL`.  Opaque `cl_mem` backing handles are modelled as `Option Nat`
(`none` = the field was never written / the backing-store call returned a
null handle).  The backing store (`clCreateBuffer`, `clEnqueueReadBuffer`)
is an external collaborator: its per-call results are passed to the embedded
functions as explicit oracle arguments, and the embedding records in its
result whether the call was made.  `rand()` is modelled by an explicit
`randVal` argument.  Signed-overflow behaviour of C `int` (undefined in C)
is out of scope: counters are unbounded naturals.
-/

/-- `enum CacheConfiguration_t` from `cache.h`. -/
inductive CacheConfiguration_t where
  | direct_mapped
  | two_way
  | four_way
  | fully_associative
deriving DecidableEq

/-- `enum ReplacementPolicy_t` from `cache.h`. -/
inductive ReplacementPolicy_t where
  | random_RP
  | fifo_RP
  | lru_RP
  | mru_RP
  | lfu_RP
  | mfu_RP
deriving DecidableEq

/-- `struct MetaData_t` from `cache.h`. -/
structure MetaData_t where
  nodeId : Int
  accessedOrder : Nat
deriving DecidableEq

/-- `struct CacheLine_t` from `cache.h`.  `tag` is the `void*` host address
stored as a natural number (`0` = `NULL`); `deviceData` is the opaque
`cl_mem` handle, `none` while the field is still uninitialized. -/
structure CacheLine_t where
  valid : Bool
  tag : Nat
  metaData : MetaData_t
  deviceData : Option Nat
deriving DecidableEq

/-- `struct Cache_t` from `cache.h`.  The `CacheLine_t**` table becomes a
list of sets, each set a list of ways; `int* replacementLine` becomes a list
of per-set cursors. -/
structure Cache_t where
  memCopies : Nat
  ReadTransfers : Nat
  WriteTransfers : Nat
  tagSize : Nat
  dataSize : Nat
  indexBitMask : Nat
  addressBitShift : Nat
  numberOfLinesPerSet : Nat
  numberOfSets : Nat
  config : CacheConfiguration_t
  cacheLine : List (List CacheLine_t)
  replacementLine : List Nat
  policy : ReplacementPolicy_t
deriving DecidableEq

/-- Stand-in value produced when the C code reads a cache line outside the
allocated table (an out-of-bounds access, undefined behaviour in C — see the
claim about the `way = -1` read).  Modelled as a fixed invalid line. -/
def junkLine : CacheLine_t :=
  { valid := false, tag := 0, metaData := { nodeId := -1, accessedOrder := 0 }, deviceData := none }

/-- Read `cachePtr->cacheLine[si][wi]` with a natural-number way index. -/
def lineAt (c : Cache_t) (si wi : Nat) : CacheLine_t :=
  (c.cacheLine.getD si []).getD wi junkLine

/-- Read `cachePtr->cacheLine[si][way]` where `way` is the C `int` produced
by `GetWay` (possibly the `-1` miss marker): a negative index is an
out-of-bounds read, modelled by `junkLine`. -/
def getLineI (c : Cache_t) (si : Nat) (way : Int) : CacheLine_t :=
  if way < 0 then junkLine else lineAt c si way.toNat

/-- Overwrite line `(si, wi)` of the table with `f` applied to it
(`List.set` is a no-op outside the allocated bounds). -/
def setLineAt (c : Cache_t) (si wi : Nat) (f : CacheLine_t → CacheLine_t) : Cache_t :=
  { c with cacheLine :=
      c.cacheLine.set si ((c.cacheLine.getD si []).set wi (f (lineAt c si wi))) }

/-- `⌈log₂ n⌉`: the value `CreateCache` computes as
`ceil(log10(n) / log10(2))` in floating point (exact for the argument ranges
used here), i.e. the least `k` with `n ≤ 2 ^ k` (and `0` for `n = 0`). -/
def ceilLog2 (n : Nat) : Nat :=
  (((List.range n).find? fun k => n ≤ 2 ^ k).getD n)

/-- The `addressBitShift` loop of `CreateCache` (`cache.c` lines 72–75):
starting at `k = 0` and running while `k < dataSize`, stop at the first `k`
with `dataSize % 2^(k+1) ≠ 0`; `fuel` is the number of remaining iterations. -/
def shiftLoop (dataSize : Nat) : Nat → Nat → Nat
  | 0, k => k
  | fuel + 1, k => if dataSize % 2 ^ (k + 1) ≠ 0 then k else shiftLoop dataSize fuel (k + 1)

/-- `addressBitShift` as computed by `CreateCache` from `dataSize`. -/
def computeAddressBitShift (dataSize : Nat) : Nat :=
  shiftLoop dataSize dataSize 0

/-- `CreateCache` (`cache.c` lines 11–111).  The `switch` on the
configuration picks `numberOfSets`, `numberOfLinesPerSet` and `indexSize`
(the C `floor` divisions are `Nat` division); `indexSize` is a C `int` and
can go negative for tiny caches, so it is an `Int` here, and the
`pow(2, indexSize) - 1` double arithmetic truncates to `0` for a negative
exponent.  All lines start invalid with `NULL` tag, `nodeId = -1`,
`accessedOrder = 0`; the cursors start at `0` (`calloc`).  The function has
no failure path: it always returns a fully formed cache. -/
def CreateCache (numberOfCacheLines dataSize tagSize : Nat)
    (config : CacheConfiguration_t) (policy : ReplacementPolicy_t) : Cache_t :=
  let numberOfSets : Nat :=
    match config with
    | .direct_mapped => numberOfCacheLines
    | .two_way => numberOfCacheLines / 2
    | .four_way => numberOfCacheLines / 4
    | .fully_associative => 1
  let numberOfLinesPerSet : Nat :=
    match config with
    | .direct_mapped => 1
    | .two_way => 2
    | .four_way => 4
    | .fully_associative => numberOfCacheLines
  let indexSize : Int :=
    match config with
    | .direct_mapped => (ceilLog2 numberOfCacheLines : Int)
    | .two_way => (ceilLog2 numberOfCacheLines : Int) - 1
    | .four_way => (ceilLog2 numberOfCacheLines : Int) - 2
    | .fully_associative => 1
  let initLine : CacheLine_t :=
    { valid := false, tag := 0, metaData := { nodeId := -1, accessedOrder := 0 },
      deviceData := none }
  { memCopies := 0
    ReadTransfers := 0
    WriteTransfers := 0
    tagSize := tagSize
    dataSize := dataSize
    indexBitMask :=
      if config = .fully_associative then 0
      else if 0 ≤ indexSize then 2 ^ indexSize.toNat - 1 else 0
    addressBitShift := computeAddressBitShift dataSize
    numberOfLinesPerSet := numberOfLinesPerSet
    numberOfSets := numberOfSets
    config := config
    cacheLine := List.replicate numberOfSets (List.replicate numberOfLinesPerSet initLine)
    replacementLine := List.replicate numberOfSets 0
    policy := policy }

/-- `GetIndex` (`cache.c` lines 113–115):
`(hostAddress >> addressBitShift) & indexBitMask`. -/
def GetIndex (indexBitMask addressBitShift : Nat) (hostAddress : Nat) : Nat :=
  (hostAddress >>> addressBitShift) &&& indexBitMask

/-- The scan of `GetWay`'s `for` loop: the first way in
`[0, numberOfLinesPerSet)` whose line is valid and whose tag equals the host
address (reads outside the set are the `junkLine`). -/
def matchWay (c : Cache_t) (hostAddress setIndex : Nat) : Option Nat :=
  (List.range c.numberOfLinesPerSet).find? fun way =>
    (lineAt c setIndex way).valid && (lineAt c setIndex way).tag == hostAddress

/-- `GetWay` (`cache.c` lines 117–141).  Direct-mapped caches return way `0`
immediately (no scan, no bookkeeping).  Otherwise the first matching way is
returned after the on-hit policy bookkeeping: LRU/MRU increment the set's
cursor and store the new value as the hit line's `accessedOrder`, LFU/MFU
increment the hit line's `accessedOrder`.  A miss returns `-1` and changes
nothing. -/
def GetWay (hostAddress : Nat) (setIndex : Nat) (c : Cache_t) : Int × Cache_t :=
  if c.config = .direct_mapped then (0, c)
  else
    match matchWay c hostAddress setIndex with
    | some way =>
      if c.policy = .lru_RP ∨ c.policy = .mru_RP then
        let newCursor := c.replacementLine.getD setIndex 0 + 1
        let c1 := { c with replacementLine := c.replacementLine.set setIndex newCursor }
        (Int.ofNat way,
          setLineAt c1 setIndex way fun l =>
            { l with metaData := { l.metaData with accessedOrder := newCursor } })
      else if c.policy = .lfu_RP ∨ c.policy = .mfu_RP then
        (Int.ofNat way,
          setLineAt c setIndex way fun l =>
            { l with metaData := { l.metaData with accessedOrder := l.metaData.accessedOrder + 1 } })
      else
        (Int.ofNat way, c)
    | none => (-1, c)

/-- The `random_RP` arm's first loop in `SetWay`: the first invalid way. -/
def firstInvalidWay (c : Cache_t) (setIndex : Nat) : Option Nat :=
  (List.range c.numberOfLinesPerSet).find? fun way => !(lineAt c setIndex way).valid

/-- The `lru_RP`/`lfu_RP` arms' scan in `SetWay`: fold over all ways keeping
the first way whose `accessedOrder` is strictly below the current
candidate's (i.e. the first way of minimum `accessedOrder`). -/
def minOrderWay (c : Cache_t) (setIndex : Nat) : Nat :=
  (List.range c.numberOfLinesPerSet).foldl
    (fun rw way =>
      if (lineAt c setIndex way).metaData.accessedOrder
          < (lineAt c setIndex rw).metaData.accessedOrder then way else rw)
    0

/-- The `mru_RP`/`mfu_RP` arms' scan in `SetWay`: walk the ways, `break`ing
at the first invalid way, otherwise keeping the first way of maximum
`accessedOrder`. -/
def maxOrderScan (c : Cache_t) (setIndex : Nat) : List Nat → Nat → Nat
  | [], rw => rw
  | way :: rest, rw =>
    if !(lineAt c setIndex way).valid then way
    else if (lineAt c setIndex way).metaData.accessedOrder
        > (lineAt c setIndex rw).metaData.accessedOrder then
      maxOrderScan c setIndex rest way
    else
      maxOrderScan c setIndex rest rw

/-- `SetWay` (`cache.c` lines 143–206): choose the way to (re)populate in
`setIndex` per the configured policy, applying the policy's post-selection
bookkeeping.  `randVal` stands for the `rand()` call of the `random_RP` arm. -/
def SetWay (setIndex : Nat) (c : Cache_t) (randVal : Nat) : Nat × Cache_t :=
  match c.policy with
  | .random_RP =>
    match firstInvalidWay c setIndex with
    | some way => (way, c)
    | none => (randVal % c.numberOfLinesPerSet, c)
  | .fifo_RP =>
    let newCursor := (c.replacementLine.getD setIndex 0 + 1) % c.numberOfLinesPerSet
    (newCursor, { c with replacementLine := c.replacementLine.set setIndex newCursor })
  | .lru_RP =>
    let rw := minOrderWay c setIndex
    let newCursor := c.replacementLine.getD setIndex 0 + 1
    let c1 := { c with replacementLine := c.replacementLine.set setIndex newCursor }
    (rw, setLineAt c1 setIndex rw fun l =>
      { l with metaData := { l.metaData with accessedOrder := newCursor } })
  | .mru_RP =>
    let rw := maxOrderScan c setIndex (List.range c.numberOfLinesPerSet) 0
    let newCursor := c.replacementLine.getD setIndex 0 + 1
    let c1 := { c with replacementLine := c.replacementLine.set setIndex newCursor }
    (rw, setLineAt c1 setIndex rw fun l =>
      { l with metaData := { l.metaData with accessedOrder := newCursor } })
  | .lfu_RP =>
    let rw := minOrderWay c setIndex
    (rw, setLineAt c setIndex rw fun l =>
      { l with metaData := { l.metaData with accessedOrder := 1 } })
  | .mfu_RP =>
    let rw := maxOrderScan c setIndex (List.range c.numberOfLinesPerSet) 0
    (rw, setLineAt c setIndex rw fun l =>
      { l with metaData := { l.metaData with accessedOrder := 1 } })

/-- Result of the embedded `clCreateCacheBuffer`: the returned `cl_mem`
(the addressed line's `deviceData`), the cache after the call, and whether
the backing-store `clCreateBuffer` callback and the `SetWay` evictor were
invoked during the call. -/
structure ResolveOutcome where
  ret : Option Nat
  cache : Cache_t
  createCalled : Bool
  setWayCalled : Bool
deriving DecidableEq

/-- `clCreateCacheBuffer` (`cache.c` lines 208–235), the resolve protocol.
`copyHostPtrFlag` is `(flags & CL_MEM_COPY_HOST_PTR) == CL_MEM_COPY_HOST_PTR`
for the caller's flags; `hostAddress = 0` is `NULL`; `newHandle` is the
handle the backing-store `clCreateBuffer` would return on this call (`none`
for a failed create returning a null handle — the source stores it, counts
and validates the line regardless).  The guard on line 212 reads
`cacheLine[set][way]` with the way returned by `GetWay` *before* the
`way == -1` miss test; on an associative miss this is the out-of-bounds
index `-1`, modelled by `junkLine`.  Both the `hostAddress != NULL` and the
`hostAddress == NULL` branches call `clCreateBuffer`. -/
def clCreateCacheBuffer (copyHostPtrFlag : Bool) (hostAddress : Nat)
    (newHandle : Option Nat) (randVal : Nat) (c : Cache_t) : ResolveOutcome :=
  let set := GetIndex c.indexBitMask c.addressBitShift hostAddress
  let r := GetWay hostAddress set c
  let way0 := r.1
  let c1 := r.2
  let guardLine := getLineI c1 set way0
  if copyHostPtrFlag ∧ guardLine.valid = true ∧ guardLine.tag = hostAddress then
    { ret := guardLine.deviceData, cache := c1, createCalled := false, setWayCalled := false }
  else
    let s :=
      if way0 = -1 then
        let sw := SetWay set c1 randVal
        (sw.1, sw.2, true)
      else (way0.toNat, c1, false)
    let way := s.1
    let c2 := s.2.1
    let c3 := setLineAt c2 set way fun l => { l with deviceData := newHandle }
    let c4 := { c3 with
      memCopies := c3.memCopies + 1,
      WriteTransfers := c3.WriteTransfers + if copyHostPtrFlag then 1 else 0 }
    let c5 := setLineAt c4 set way fun l => { l with tag := hostAddress, valid := true }
    { ret := (lineAt c5 set way).deviceData, cache := c5,
      createCalled := true, setWayCalled := s.2.2 }

/-- Result of the embedded `clEnqueueReadCacheBuffer`: the C return value
(`0` = transferred, `1` = miss), the cache after the call, and whether the
backing-store `clEnqueueReadBuffer` callback was invoked. -/
structure ReadOutcome where
  ret : Nat
  cache : Cache_t
  readCalled : Bool
deriving DecidableEq

/-- `clEnqueueReadCacheBuffer` (`cache.c` lines 238–251), the read-back
protocol.  `readErr` is the status the backing-store `clEnqueueReadBuffer`
would return on this call; the source assigns it to a local and never
inspects it — it counts the transfer and returns `0` regardless.  The hit
test on line 244 reads `cacheLine[set][way]` with the way returned by
`GetWay` *before* establishing `way ≠ -1`; on an associative miss this is
the out-of-bounds index `-1`, modelled by `junkLine`. -/
def clEnqueueReadCacheBuffer (hostAddress : Nat) (readErr : Int) (c : Cache_t) : ReadOutcome :=
  let set := GetIndex c.indexBitMask c.addressBitShift hostAddress
  let r := GetWay hostAddress set c
  let way0 := r.1
  let c1 := r.2
  let l := getLineI c1 set way0
  if l.valid = true ∧ l.tag = hostAddress then
    { ret := 0,
      cache := { c1 with memCopies := c1.memCopies + 1, ReadTransfers := c1.ReadTransfers + 1 },
      readCalled := true }
  else
    { ret := 1, cache := c1, readCalled := false }

/-- The `(set, way)` subscript at which the guard of `clCreateCacheBuffer`
(line 212 of `cache.c`) reads the line table when `CL_MEM_COPY_HOST_PTR` is
set in the caller's flags (without the flag C's `&&` short-circuits before
the subscript): the set from `GetIndex` and the raw way from `GetWay`,
before the `way == -1` test. -/
def resolveGuardReadIndex (c : Cache_t) (hostAddress : Nat) : Nat × Int :=
  let set := GetIndex c.indexBitMask c.addressBitShift hostAddress
  (set, (GetWay hostAddress set c).1)

/-- The `(set, way)` subscript at which the hit test of
`clEnqueueReadCacheBuffer` (line 244 of `cache.c`) reads the line table:
the set from `GetIndex` and the raw way from `GetWay`, before any miss
test. -/
def readBackGuardReadIndex (c : Cache_t) (hostAddress : Nat) : Nat × Int :=
  let set := GetIndex c.indexBitMask c.addressBitShift hostAddress
  (set, (GetWay hostAddress set c).1)

/-- One caller-visible cache operation together with the outcome its
backing-store call would have (the oracle data). -/
inductive CacheOp where
  | create (copyHostPtrFlag : Bool) (hostAddress : Nat) (newHandle : Option Nat) (randVal : Nat)
  | read (hostAddress : Nat) (readErr : Int)
deriving DecidableEq

/-- Apply one operation to the cache. -/
def stepOp (c : Cache_t) : CacheOp → Cache_t
  | .create f a h r => (clCreateCacheBuffer f a h r c).cache
  | .read a e => (clEnqueueReadCacheBuffer a e c).cache

/-- Run a sequence of operations. -/
def runOps (c : Cache_t) (ops : List CacheOp) : Cache_t :=
  ops.foldl stepOp c

/-! ## Concrete caches used by witnesses and counterexamples -/

/-- A fresh direct-mapped cache: 4 lines of 64 bytes (the configuration of
the spec's testable-properties section). -/
def cacheDM : Cache_t := CreateCache 4 64 8 .direct_mapped .random_RP

/-- A fresh two-way set-associative LRU cache with 4 lines of 64 bytes. -/
def cacheTWlru : Cache_t := CreateCache 4 64 8 .two_way .lru_RP

/-- The two-way LRU cache after resolving host address 64 (set 1) with host
content: way 0 of set 1 holds tag 64, handle 7. -/
def cacheTWlru1 : Cache_t := (clCreateCacheBuffer true 64 (some 7) 0 cacheTWlru).cache

/-- A fresh two-way set-associative FIFO cache with 4 lines of 64 bytes. -/
def cacheTWfifo : Cache_t := CreateCache 4 64 8 .two_way .fifo_RP

/-- A fresh direct-mapped LRU cache after resolving host address 64: way 0
of set 1 holds tag 64, handle 7, and no bookkeeping field was touched. -/
def cacheDMlru1 : Cache_t :=
  (clCreateCacheBuffer true 64 (some 7) 0 (CreateCache 4 64 8 .direct_mapped .lru_RP)).cache

/-- The hit re-check performed by both protocol guards (lines 212 and 244 of
cache.c): after GetWay, the line at the returned way of the indexed set is
valid and its tag is identical to the host address.  For associative caches
this coincides with a non-Miss GetWay result; for direct-mapped caches it is
the valid-flag/tag check of way 0. -/
def lookupReportsHit (c : Cache_t) (hostAddress : Nat) : Bool :=
  let set := GetIndex c.indexBitMask c.addressBitShift hostAddress
  let r := GetWay hostAddress set c
  (getLineI r.2 set r.1).valid && (getLineI r.2 set r.1).tag == hostAddress


/-! ## Helper lemmas about list indexing and the line table -/

theorem getD_set_split {α : Type} (l : List α) (i j : Nat) (a d : α) :
    (l.set i a).getD j d = if i = j ∧ i < l.length then a else l.getD j d := by
  induction l generalizing i j with
  | nil => simp [List.getD]
  | cons x xs ih =>
    cases i with
    | zero =>
      cases j with
      | zero => simp
      | succ j => simp [List.getD_cons_succ]
    | succ i =>
      cases j with
      | zero => simp
      | succ j =>
        have hs : ((x :: xs).set (i + 1) a) = x :: xs.set i a := rfl
        rw [hs, List.getD_cons_succ, List.getD_cons_succ, ih]
        by_cases h : i = j ∧ i < xs.length
        · rw [if_pos h, if_pos ⟨congrArg Nat.succ h.1, Nat.succ_lt_succ h.2⟩]
        · rw [if_neg h,
            if_neg (fun hc => h ⟨Nat.succ_injective hc.1, Nat.lt_of_succ_lt_succ hc.2⟩)]

theorem lineAt_setLineAt (c : Cache_t) (si wi i j : Nat) (f : CacheLine_t → CacheLine_t) :
    lineAt (setLineAt c si wi f) i j =
      if si = i ∧ si < c.cacheLine.length ∧ wi = j ∧ wi < (c.cacheLine.getD si []).length
      then f (lineAt c si wi) else lineAt c i j := by
  unfold lineAt setLineAt
  by_cases h1 : si = i ∧ si < c.cacheLine.length
  · obtain ⟨rfl, h1b⟩ := h1
    rw [getD_set_split, if_pos ⟨rfl, h1b⟩, getD_set_split]
    by_cases h2 : wi = j ∧ wi < (c.cacheLine.getD si []).length
    · rw [if_pos h2, if_pos ⟨rfl, h1b, h2.1, h2.2⟩]; rfl
    · rw [if_neg h2, if_neg (fun hc => h2 ⟨hc.2.2.1, hc.2.2.2⟩)]
  · rw [getD_set_split, if_neg h1, if_neg (fun hc => h1 ⟨hc.1, hc.2.1⟩)]

theorem lineAt_setLineAt_same_fields (c : Cache_t) (si wi i j : Nat)
    (f : CacheLine_t → CacheLine_t)
    (hv : ∀ l, (f l).valid = l.valid) (ht : ∀ l, (f l).tag = l.tag)
    (hd : ∀ l, (f l).deviceData = l.deviceData) :
    (lineAt (setLineAt c si wi f) i j).valid = (lineAt c i j).valid ∧
    (lineAt (setLineAt c si wi f) i j).tag = (lineAt c i j).tag ∧
    (lineAt (setLineAt c si wi f) i j).deviceData = (lineAt c i j).deviceData := by
  rw [lineAt_setLineAt]
  split
  · next h => exact ⟨by rw [hv, h.1, h.2.2.1], by rw [ht, h.1, h.2.2.1], by rw [hd, h.1, h.2.2.1]⟩
  · exact ⟨rfl, rfl, rfl⟩

/-! ## Characterization of the lookup scan -/

theorem matchWay_eq_none_iff (c : Cache_t) (a si : Nat) :
    matchWay c a si = none ↔
      ∀ w < c.numberOfLinesPerSet,
        ¬((lineAt c si w).valid = true ∧ (lineAt c si w).tag = a) := by
  unfold matchWay
  rw [List.find?_eq_none]
  constructor
  · intro h w hw
    have := h w (List.mem_range.mpr hw)
    simpa [Bool.and_eq_true, beq_iff_eq] using this
  · intro h w hw
    have := h w (List.mem_range.mp hw)
    simpa [Bool.and_eq_true, beq_iff_eq] using this

theorem matchWay_eq_some (c : Cache_t) (a si w : Nat) (h : matchWay c a si = some w) :
    w < c.numberOfLinesPerSet ∧ (lineAt c si w).valid = true ∧ (lineAt c si w).tag = a := by
  have h1 := List.find?_some h
  have h2 := List.mem_of_find?_eq_some h
  rw [List.mem_range] at h2
  simp only [Bool.and_eq_true, beq_iff_eq] at h1
  exact ⟨h2, h1.1, h1.2⟩

/-! ## Preservation facts about `GetWay` -/

theorem GetWay_preserves (a si : Nat) (c : Cache_t) :
    (GetWay a si c).2.memCopies = c.memCopies ∧
    (GetWay a si c).2.ReadTransfers = c.ReadTransfers ∧
    (GetWay a si c).2.WriteTransfers = c.WriteTransfers ∧
    (GetWay a si c).2.tagSize = c.tagSize ∧
    (GetWay a si c).2.dataSize = c.dataSize ∧
    (GetWay a si c).2.indexBitMask = c.indexBitMask ∧
    (GetWay a si c).2.addressBitShift = c.addressBitShift ∧
    (GetWay a si c).2.numberOfLinesPerSet = c.numberOfLinesPerSet ∧
    (GetWay a si c).2.numberOfSets = c.numberOfSets ∧
    (GetWay a si c).2.config = c.config ∧
    (GetWay a si c).2.policy = c.policy ∧
    (∀ i j, ((lineAt (GetWay a si c).2 i j).valid = (lineAt c i j).valid ∧
             (lineAt (GetWay a si c).2 i j).tag = (lineAt c i j).tag ∧
             (lineAt (GetWay a si c).2 i j).deviceData = (lineAt c i j).deviceData)) := by
  unfold GetWay
  split
  · simp
  · cases hm : matchWay c a si with
    | none => simp
    | some w =>
      simp only
      split
      · refine ⟨rfl, rfl, rfl, rfl, rfl, rfl, rfl, rfl, rfl, rfl, rfl, ?_⟩
        intro i j
        have := lineAt_setLineAt_same_fields
          { c with replacementLine := c.replacementLine.set si (c.replacementLine.getD si 0 + 1) }
          si w i j
          (fun l => { l with metaData := { l.metaData with
            accessedOrder := c.replacementLine.getD si 0 + 1 } })
          (fun _ => rfl) (fun _ => rfl) (fun _ => rfl)
        simpa [lineAt, setLineAt] using this
      · split
        · refine ⟨rfl, rfl, rfl, rfl, rfl, rfl, rfl, rfl, rfl, rfl, rfl, ?_⟩
          intro i j
          exact lineAt_setLineAt_same_fields c si w i j _
            (fun _ => rfl) (fun _ => rfl) (fun _ => rfl)
        · simp

theorem GetWay_fst_of_not_dm (a si : Nat) (c : Cache_t)
    (h : c.config ≠ .direct_mapped) :
    (GetWay a si c).1 =
      (match matchWay c a si with
       | some w => Int.ofNat w
       | none => -1) := by
  unfold GetWay
  rw [if_neg h]
  cases hm : matchWay c a si with
  | none => simp
  | some w =>
    simp only
    split
    · rfl
    · split
      · rfl
      · rfl

/-! ## The addressBitShift loop -/

theorem shiftLoop_spec (d : Nat) :
    ∀ fuel k, d % 2 ^ k = 0 →
      d % 2 ^ shiftLoop d fuel k = 0 ∧
      (shiftLoop d fuel k < k + fuel → d % 2 ^ (shiftLoop d fuel k + 1) ≠ 0) ∧
      k ≤ shiftLoop d fuel k ∧ shiftLoop d fuel k ≤ k + fuel := by
  intro fuel
  induction fuel with
  | zero =>
    intro k hk
    simp only [shiftLoop]
    exact ⟨hk, fun h => absurd h (by omega), Nat.le_refl k, by omega⟩
  | succ fuel ih =>
    intro k hk
    by_cases hbr : d % 2 ^ (k + 1) ≠ 0
    · rw [shiftLoop, if_pos hbr]
      exact ⟨hk, fun _ => hbr, Nat.le_refl k, by omega⟩
    · rw [shiftLoop, if_neg hbr]
      have hnext : d % 2 ^ (k + 1) = 0 := by omega
      obtain ⟨h1, h2, h3, h4⟩ := ih (k + 1) hnext
      exact ⟨h1, fun h => h2 (by omega), by omega, by omega⟩

/-- Claim C3, amended: for every positive lineDataSize, construction sets
addressBitShift to the largest k such that lineDataSize is evenly divisible
by 2 ^ k (equivalently, 2 ^ addressBitShift divides lineDataSize but
2 ^ (addressBitShift + 1) does not); in particular, for lineDataSize = 64
the resulting addressBitShift equals 6.  (The claim's original
characterization, divisibility by 2 ^ (k + 1), is off by one: its largest k
for 64 is 5, not the 6 the code computes — see the counterexample.) -/
theorem claim_C3_addressBitShift (dataSize : Nat) (hpos : 1 ≤ dataSize) :
    dataSize % 2 ^ computeAddressBitShift dataSize = 0 ∧
    dataSize % 2 ^ (computeAddressBitShift dataSize + 1) ≠ 0 ∧
    (∀ k, dataSize % 2 ^ k = 0 → k ≤ computeAddressBitShift dataSize) ∧
    computeAddressBitShift 64 = 6 ∧
    (∀ n ts cfg pol,
      (CreateCache n dataSize ts cfg pol).addressBitShift = computeAddressBitShift dataSize) := by
  obtain ⟨h1, h2, h3, h4⟩ := shiftLoop_spec dataSize dataSize 0
    (by rw [pow_zero]; exact Nat.mod_one dataSize)
  have hlt : shiftLoop dataSize dataSize 0 < dataSize := by
    have hdvd : 2 ^ shiftLoop dataSize dataSize 0 ∣ dataSize := Nat.dvd_of_mod_eq_zero h1
    have hle : 2 ^ shiftLoop dataSize dataSize 0 ≤ dataSize := Nat.le_of_dvd (by omega) hdvd
    have := Nat.lt_two_pow (shiftLoop dataSize dataSize 0)
    omega
  have h2' : dataSize % 2 ^ (computeAddressBitShift dataSize + 1) ≠ 0 := by
    unfold computeAddressBitShift
    exact h2 (by omega)
  refine ⟨h1, h2', ?_, ?_, fun n ts cfg pol => rfl⟩
  · intro k hk
    by_contra hgt
    have hk1 : computeAddressBitShift dataSize + 1 ≤ k := by omega
    have : (2 : Nat) ^ (computeAddressBitShift dataSize + 1) ∣ dataSize :=
      dvd_trans (pow_dvd_pow 2 hk1) (Nat.dvd_of_mod_eq_zero hk)
    exact h2' (Nat.mod_eq_zero_of_dvd this)
  · decide

/-- Claim C3, counterexample: the code computes addressBitShift 6 for
lineDataSize 64, but 64 is not divisible by 2 ^ (6 + 1); the largest k with
64 evenly divisible by 2 ^ (k + 1) is 5.  So the claim's characterization
contradicts its own concrete instance, and the code satisfies only the
latter. -/
theorem claim_C3_counterexample :
    computeAddressBitShift 64 = 6 ∧
    64 % 2 ^ (6 + 1) ≠ 0 ∧
    64 % 2 ^ (5 + 1) = 0 ∧
    (∀ k < 64, 64 % 2 ^ (k + 1) = 0 → k ≤ 5) ∧
    (CreateCache 4 64 8 .direct_mapped .random_RP).addressBitShift = 6 := by decide

/-- Witness for claim C3: the amended theorem applied at lineDataSize 64. -/
theorem claim_C3_addressBitShift_witness :
    1 ≤ 64 ∧
    (64 % 2 ^ computeAddressBitShift 64 = 0 ∧
     64 % 2 ^ (computeAddressBitShift 64 + 1) ≠ 0 ∧
     (∀ k, 64 % 2 ^ k = 0 → k ≤ computeAddressBitShift 64) ∧
     computeAddressBitShift 64 = 6 ∧
     (∀ n ts cfg pol,
       (CreateCache n 64 ts cfg pol).addressBitShift = computeAddressBitShift 64)) :=
  ⟨by decide, claim_C3_addressBitShift 64 (by decide)⟩

/-- Claim C5: the claim states construction fails with ConfigurationError
when totalLines is not a power of two, lineDataSize is zero, or linesPerSet
exceeds totalLines.  The source CreateCache has no failure path at all: this
theorem evaluates it at all three failing inputs, each of which still
returns a fully formed cache (the spec itself flags this validation gap as a
hardening over the source), so the claim is a code bug, not code behaviour. -/
theorem claim_C5_no_validation :
    (CreateCache 3 64 8 .direct_mapped .random_RP).numberOfSets = 3 ∧
    (CreateCache 3 64 8 .direct_mapped .random_RP).numberOfLinesPerSet = 1 ∧
    (CreateCache 3 64 8 .direct_mapped .random_RP).indexBitMask = 3 ∧
    (CreateCache 4 0 8 .direct_mapped .random_RP).numberOfSets = 4 ∧
    (CreateCache 4 0 8 .direct_mapped .random_RP).dataSize = 0 ∧
    (CreateCache 2 64 8 .four_way .random_RP).numberOfLinesPerSet = 4 ∧
    (CreateCache 2 64 8 .four_way .random_RP).numberOfSets = 0 := by decide

/-! ## Claim C4: lookup hit/miss characterization -/

/-- Claim C4, amended: for every non-direct-mapped configuration, GetWay
returns Miss (-1) if and only if no way of the indexed set is valid with a
tag identical to the address; when it returns a way, that way is in range
and matches; and the result is always either Miss or a way in range (it
never fails otherwise).  For a direct-mapped configuration the original
claim is false — GetWay unconditionally returns way 0, never Miss (the
valid flag is re-checked by the callers), as the last conjunct states and
the counterexample shows. -/
theorem claim_C4_lookup (c : Cache_t) (a si : Nat)
    (hcfg : c.config ≠ .direct_mapped) :
    ((GetWay a si c).1 = -1 ↔
      ∀ w < c.numberOfLinesPerSet,
        ¬((lineAt c si w).valid = true ∧ (lineAt c si w).tag = a)) ∧
    (∀ w : Nat, (GetWay a si c).1 = (w : Int) →
      w < c.numberOfLinesPerSet ∧ (lineAt c si w).valid = true ∧ (lineAt c si w).tag = a) ∧
    ((GetWay a si c).1 = -1 ∨
      ∃ w : Nat, (GetWay a si c).1 = (w : Int) ∧ w < c.numberOfLinesPerSet) ∧
    (∀ c' : Cache_t, c'.config = .direct_mapped → ∀ a' si' : Nat, (GetWay a' si' c').1 = 0) := by
  have hfst := GetWay_fst_of_not_dm a si c hcfg
  have hdm : ∀ c' : Cache_t, c'.config = .direct_mapped →
      ∀ a' si' : Nat, (GetWay a' si' c').1 = 0 := by
    intro c' h a' si'
    unfold GetWay
    rw [if_pos h]
  cases hm : matchWay c a si with
  | none =>
    have hfst' : (GetWay a si c).1 = -1 := by rw [hfst, hm]
    refine ⟨?_, ?_, Or.inl hfst', hdm⟩
    · rw [hfst']
      simp only [true_iff]
      exact (matchWay_eq_none_iff c a si).mp hm
    · intro w hw
      rw [hfst'] at hw
      exact absurd hw (by omega)
  | some w =>
    have hfst' : (GetWay a si c).1 = (w : Int) := by rw [hfst, hm]; rfl
    have hsome := matchWay_eq_some c a si w hm
    refine ⟨?_, ?_, Or.inr ⟨w, hfst', hsome.1⟩, hdm⟩
    · refine iff_of_false (by rw [hfst']; omega) ?_
      intro hall
      exact hall w hsome.1 ⟨hsome.2.1, hsome.2.2⟩
    · intro w' hw'
      rw [hfst'] at hw'
      have : w = w' := by omega
      subst this
      exact hsome

/-- Claim C4, counterexample: in a freshly created direct-mapped cache no
way of set 1 is valid, yet GetWay returns way 0 for address 64, not Miss —
contradicting the claim's "returns Miss if and only if no way matches" for
the DirectMapped configuration it explicitly includes. -/
theorem claim_C4_counterexample :
    cacheDM.config = .direct_mapped ∧
    (∀ w < cacheDM.numberOfLinesPerSet,
      ¬((lineAt cacheDM 1 w).valid = true ∧ (lineAt cacheDM 1 w).tag = 64)) ∧
    (GetWay 64 1 cacheDM).1 = 0 ∧
    (GetWay 64 1 cacheDM).1 ≠ -1 := by decide

/-- Witness for claim C4: the amended theorem applied to the two-way LRU
cache holding address 64, looked up at address 64 in set 1. -/
theorem claim_C4_lookup_witness :
    cacheTWlru1.config ≠ .direct_mapped ∧
    (((GetWay 64 1 cacheTWlru1).1 = -1 ↔
      ∀ w < cacheTWlru1.numberOfLinesPerSet,
        ¬((lineAt cacheTWlru1 1 w).valid = true ∧ (lineAt cacheTWlru1 1 w).tag = 64)) ∧
     (∀ w : Nat, (GetWay 64 1 cacheTWlru1).1 = (w : Int) →
       w < cacheTWlru1.numberOfLinesPerSet ∧
       (lineAt cacheTWlru1 1 w).valid = true ∧ (lineAt cacheTWlru1 1 w).tag = 64) ∧
     ((GetWay 64 1 cacheTWlru1).1 = -1 ∨
       ∃ w : Nat, (GetWay 64 1 cacheTWlru1).1 = (w : Int) ∧
         w < cacheTWlru1.numberOfLinesPerSet) ∧
     (∀ c' : Cache_t, c'.config = .direct_mapped →
       ∀ a' si' : Nat, (GetWay a' si' c').1 = 0)) :=
  ⟨by decide, claim_C4_lookup cacheTWlru1 64 1 (by decide)⟩

/-! ## Claim C6: FIFO cursor behaviour -/

/-- Claim C6: under the FIFO policy every SetWay call advances the per-set
cursor to (old cursor + 1) mod linesPerSet and returns the new cursor as the
victim, unconditionally — nothing in the FIFO arm consults line validity, so
this holds even when an invalid way exists — and no GetWay call (hit or
miss) changes anything at all under FIFO, in particular not the cursor. -/
theorem claim_C6_fifo_cursor (c : Cache_t) (setIndex randVal : Nat)
    (hp : c.policy = .fifo_RP) (hsi : setIndex < c.replacementLine.length) :
    (SetWay setIndex c randVal).1 =
      (c.replacementLine.getD setIndex 0 + 1) % c.numberOfLinesPerSet ∧
    (SetWay setIndex c randVal).2 =
      { c with replacementLine :=
          (c.replacementLine.set setIndex
            ((c.replacementLine.getD setIndex 0 + 1) % c.numberOfLinesPerSet)) } ∧
    (SetWay setIndex c randVal).2.replacementLine.getD setIndex 0 =
      (SetWay setIndex c randVal).1 ∧
    (∀ a si : Nat, (GetWay a si c).2 = c) := by
  refine ⟨?_, ?_, ?_, ?_⟩
  · simp [SetWay, hp]
  · simp [SetWay, hp]
  · simp only [SetWay, hp]
    rw [getD_set_split, if_pos ⟨rfl, hsi⟩]
  · intro a si
    unfold GetWay
    split
    · rfl
    · cases hm : matchWay c a si with
      | none => rfl
      | some w => simp [hp]

/-- Witness for claim C6: the FIFO theorem applied to the fresh two-way
FIFO cache at set 0 (whose ways are all invalid — the cursor still
advances). -/
theorem claim_C6_fifo_cursor_witness :
    (cacheTWfifo.policy = .fifo_RP ∧ 0 < cacheTWfifo.replacementLine.length) ∧
    ((SetWay 0 cacheTWfifo 3).1 =
      (cacheTWfifo.replacementLine.getD 0 0 + 1) % cacheTWfifo.numberOfLinesPerSet ∧
     (SetWay 0 cacheTWfifo 3).2 =
      { cacheTWfifo with replacementLine :=
          (cacheTWfifo.replacementLine.set 0
            ((cacheTWfifo.replacementLine.getD 0 0 + 1) % cacheTWfifo.numberOfLinesPerSet)) } ∧
     (SetWay 0 cacheTWfifo 3).2.replacementLine.getD 0 0 = (SetWay 0 cacheTWfifo 3).1 ∧
     (∀ a si : Nat, (GetWay a si cacheTWfifo).2 = cacheTWfifo)) :=
  ⟨⟨by decide, by decide⟩, claim_C6_fifo_cursor cacheTWfifo 0 3 (by decide) (by decide)⟩

/-! ## Claim C9: the out-of-bounds guard read on the associative miss path -/

/-- Claim C9: for every non-direct-mapped cache and every address with no
matching way in its indexed set, the way GetWay hands back is -1, and both
clCreateCacheBuffer (when CL_MEM_COPY_HOST_PTR is supplied, so the C &&
does not short-circuit) and clEnqueueReadCacheBuffer subscript the line
table at way -1 — an index below every valid bound — before testing the way
for Miss; in the embedding that read falls through to the junkLine
stand-in.  The witness shows the situation is reachable: a miss in an
associative cache. -/
theorem claim_C9_oob_guard_read (c : Cache_t) (a : Nat)
    (hcfg : c.config ≠ .direct_mapped)
    (hmiss : matchWay c a (GetIndex c.indexBitMask c.addressBitShift a) = none) :
    (resolveGuardReadIndex c a).2 = -1 ∧
    (readBackGuardReadIndex c a).2 = -1 ∧
    (resolveGuardReadIndex c a).2 < 0 ∧
    getLineI (GetWay a (GetIndex c.indexBitMask c.addressBitShift a) c).2
      (GetIndex c.indexBitMask c.addressBitShift a) (resolveGuardReadIndex c a).2 = junkLine := by
  have h1 : (GetWay a (GetIndex c.indexBitMask c.addressBitShift a) c).1 = -1 := by
    rw [GetWay_fst_of_not_dm _ _ _ hcfg, hmiss]
  have h2 : (resolveGuardReadIndex c a).2 = -1 := h1
  refine ⟨h2, h1, ?_, ?_⟩
  · rw [h2]
    decide
  · rw [h2]
    unfold getLineI
    rw [if_pos (by decide)]

/-- Witness for claim C9: address 64 misses in the fresh two-way LRU cache,
so the guard reads of both protocols subscript way -1. -/
theorem claim_C9_oob_guard_read_witness :
    (cacheTWlru.config ≠ .direct_mapped ∧
     matchWay cacheTWlru 64 (GetIndex cacheTWlru.indexBitMask cacheTWlru.addressBitShift 64)
       = none) ∧
    ((resolveGuardReadIndex cacheTWlru 64).2 = -1 ∧
     (readBackGuardReadIndex cacheTWlru 64).2 = -1 ∧
     (resolveGuardReadIndex cacheTWlru 64).2 < 0 ∧
     getLineI (GetWay 64 (GetIndex cacheTWlru.indexBitMask cacheTWlru.addressBitShift 64)
         cacheTWlru).2
       (GetIndex cacheTWlru.indexBitMask cacheTWlru.addressBitShift 64)
       (resolveGuardReadIndex cacheTWlru 64).2 = junkLine) :=
  ⟨⟨by decide, by decide⟩, claim_C9_oob_guard_read cacheTWlru 64 (by decide) (by decide)⟩

/-! ## Claim C7: on-hit policy bookkeeping -/

/-- Claim C7, amended: on every lookup hit in a non-direct-mapped
configuration, GetWay returns the matching way and applies the policy
bookkeeping to the hit line: under LRU or MRU the set's monotonic cursor is
advanced by 1 and the new value is stored as the hit line's accessedOrder;
under LFU or MFU the hit line's accessedOrder is incremented by 1 (cursors
untouched); under Random or FIFO nothing changes.  For the direct-mapped
configuration the original claim fails: GetWay returns way 0 immediately
and performs no bookkeeping on a hit under any policy (see the
counterexample). -/
theorem claim_C7_hit_bookkeeping (c : Cache_t) (a si w : Nat)
    (hcfg : c.config ≠ .direct_mapped)
    (hm : matchWay c a si = some w)
    (hsi : si < c.cacheLine.length)
    (hw : w < (c.cacheLine.getD si []).length) :
    (GetWay a si c).1 = (w : Int) ∧
    ((c.policy = .lru_RP ∨ c.policy = .mru_RP) →
      ((GetWay a si c).2.replacementLine =
        (c.replacementLine.set si (c.replacementLine.getD si 0 + 1)) ∧
       (lineAt (GetWay a si c).2 si w).metaData.accessedOrder =
        c.replacementLine.getD si 0 + 1 ∧
       (∀ i j : Nat, ¬(i = si ∧ j = w) → lineAt (GetWay a si c).2 i j = lineAt c i j))) ∧
    ((c.policy = .lfu_RP ∨ c.policy = .mfu_RP) →
      ((GetWay a si c).2.replacementLine = c.replacementLine ∧
       (lineAt (GetWay a si c).2 si w).metaData.accessedOrder =
        (lineAt c si w).metaData.accessedOrder + 1 ∧
       (∀ i j : Nat, ¬(i = si ∧ j = w) → lineAt (GetWay a si c).2 i j = lineAt c i j))) ∧
    ((c.policy = .random_RP ∨ c.policy = .fifo_RP) → (GetWay a si c).2 = c) := by
  refine ⟨by rw [GetWay_fst_of_not_dm a si c hcfg, hm]; rfl, ?_, ?_, ?_⟩
  · rintro (hp | hp) <;>
    · have hGW : (GetWay a si c).2 =
          setLineAt { c with replacementLine :=
              (c.replacementLine.set si (c.replacementLine.getD si 0 + 1)) } si w
            (fun l => { l with metaData := { l.metaData with
              accessedOrder := c.replacementLine.getD si 0 + 1 } }) := by
        simp [GetWay, hcfg, hm, hp]
      refine ⟨?_, ?_, ?_⟩
      · rw [hGW]
        rfl
      · rw [hGW, lineAt_setLineAt, if_pos ⟨rfl, hsi, rfl, hw⟩]
      · intro i j hij
        rw [hGW, lineAt_setLineAt, if_neg (fun hc => hij ⟨hc.1.symm, hc.2.2.1.symm⟩)]
        rfl
  · rintro (hp | hp) <;>
    · have hGW : (GetWay a si c).2 =
          setLineAt c si w (fun l => { l with metaData := { l.metaData with
            accessedOrder := l.metaData.accessedOrder + 1 } }) := by
        simp [GetWay, hcfg, hm, hp]
      refine ⟨?_, ?_, ?_⟩
      · rw [hGW]
        rfl
      · rw [hGW, lineAt_setLineAt, if_pos ⟨rfl, hsi, rfl, hw⟩]
      · intro i j hij
        rw [hGW, lineAt_setLineAt, if_neg (fun hc => hij ⟨hc.1.symm, hc.2.2.1.symm⟩)]
  · rintro (hp | hp) <;> simp [GetWay, hcfg, hm, hp]

/-- Claim C7, counterexample: in a direct-mapped LRU cache holding address
64 in set 1, looking 64 up is a hit (the valid, tag-matching way 0 is
returned), yet the whole cache is returned unchanged: the cursor is not
advanced and the hit line's accessedOrder is not updated, contradicting the
claim's "on every lookup hit" for the LRU policy. -/
theorem claim_C7_counterexample :
    cacheDMlru1.policy = .lru_RP ∧
    cacheDMlru1.config = .direct_mapped ∧
    (lineAt cacheDMlru1 1 0).valid = true ∧
    (lineAt cacheDMlru1 1 0).tag = 64 ∧
    (GetWay 64 1 cacheDMlru1).1 = 0 ∧
    (GetWay 64 1 cacheDMlru1).2 = cacheDMlru1 ∧
    cacheDMlru1.replacementLine.getD 1 0 = 0 ∧
    (lineAt cacheDMlru1 1 0).metaData.accessedOrder = 0 := by decide

/-- Witness for claim C7: the amended theorem applied to the two-way LRU
cache holding address 64 at set 1, way 0. -/
theorem claim_C7_hit_bookkeeping_witness :
    (cacheTWlru1.config ≠ .direct_mapped ∧ matchWay cacheTWlru1 64 1 = some 0 ∧
     1 < cacheTWlru1.cacheLine.length ∧ 0 < (cacheTWlru1.cacheLine.getD 1 []).length) ∧
    ((GetWay 64 1 cacheTWlru1).1 = ((0 : Nat) : Int) ∧
     ((cacheTWlru1.policy = .lru_RP ∨ cacheTWlru1.policy = .mru_RP) →
       ((GetWay 64 1 cacheTWlru1).2.replacementLine =
         (cacheTWlru1.replacementLine.set 1 (cacheTWlru1.replacementLine.getD 1 0 + 1)) ∧
        (lineAt (GetWay 64 1 cacheTWlru1).2 1 0).metaData.accessedOrder =
         cacheTWlru1.replacementLine.getD 1 0 + 1 ∧
        (∀ i j : Nat, ¬(i = 1 ∧ j = 0) →
          lineAt (GetWay 64 1 cacheTWlru1).2 i j = lineAt cacheTWlru1 i j))) ∧
     ((cacheTWlru1.policy = .lfu_RP ∨ cacheTWlru1.policy = .mfu_RP) →
       ((GetWay 64 1 cacheTWlru1).2.replacementLine = cacheTWlru1.replacementLine ∧
        (lineAt (GetWay 64 1 cacheTWlru1).2 1 0).metaData.accessedOrder =
         (lineAt cacheTWlru1 1 0).metaData.accessedOrder + 1 ∧
        (∀ i j : Nat, ¬(i = 1 ∧ j = 0) →
          lineAt (GetWay 64 1 cacheTWlru1).2 i j = lineAt cacheTWlru1 i j))) ∧
     ((cacheTWlru1.policy = .random_RP ∨ cacheTWlru1.policy = .fifo_RP) →
       (GetWay 64 1 cacheTWlru1).2 = cacheTWlru1)) :=
  ⟨⟨by decide, by decide, by decide, by decide⟩,
    claim_C7_hit_bookkeeping cacheTWlru1 64 1 0 (by decide) (by decide) (by decide) (by decide)⟩

/-! ## Claim C1: the hit fast path of the resolve protocol -/

theorem getLineI_GetWay_fields (a si : Nat) (c : Cache_t) (si' : Nat) (w : Int) :
    (getLineI (GetWay a si c).2 si' w).valid = (getLineI c si' w).valid ∧
    (getLineI (GetWay a si c).2 si' w).tag = (getLineI c si' w).tag ∧
    (getLineI (GetWay a si c).2 si' w).deviceData = (getLineI c si' w).deviceData := by
  by_cases hneg : w < 0
  · simp [getLineI, hneg]
  · simp only [getLineI, if_neg hneg]
    obtain ⟨-, -, -, -, -, -, -, -, -, -, -, hlines⟩ := GetWay_preserves a si c
    exact hlines si' w.toNat

/-- Claim C1, amended: for every resolve call where the guard reports a hit
and the caller supplies CL_MEM_COPY_HOST_PTR host content, resolve returns
the existing backing handle unchanged: no backing-store create call, no
SetWay call, no change to any line's valid, tag or handle, and no counter
change (only the lookup's own policy bookkeeping on accessedOrder/cursor may
run, per the lookup contract).  The original claim attaches the fast path to
the ABSENCE of host content; the source's guard requires the flag's
PRESENCE — its absence is the header-documented "data will always be
written" force path — so the unamended claim fails (see the
counterexample). -/
theorem claim_C1_hit_no_mutation (c : Cache_t) (a : Nat) (nh : Option Nat) (rv : Nat)
    (hhit : lookupReportsHit c a = true) :
    (clCreateCacheBuffer true a nh rv c).createCalled = false ∧
    (clCreateCacheBuffer true a nh rv c).setWayCalled = false ∧
    (clCreateCacheBuffer true a nh rv c).ret =
      (getLineI c (GetIndex c.indexBitMask c.addressBitShift a)
        (GetWay a (GetIndex c.indexBitMask c.addressBitShift a) c).1).deviceData ∧
    (clCreateCacheBuffer true a nh rv c).cache.memCopies = c.memCopies ∧
    (clCreateCacheBuffer true a nh rv c).cache.WriteTransfers = c.WriteTransfers ∧
    (clCreateCacheBuffer true a nh rv c).cache.ReadTransfers = c.ReadTransfers ∧
    (∀ i j : Nat,
      (lineAt (clCreateCacheBuffer true a nh rv c).cache i j).valid = (lineAt c i j).valid ∧
      (lineAt (clCreateCacheBuffer true a nh rv c).cache i j).tag = (lineAt c i j).tag ∧
      (lineAt (clCreateCacheBuffer true a nh rv c).cache i j).deviceData =
        (lineAt c i j).deviceData) := by
  simp only [lookupReportsHit, Bool.and_eq_true, beq_iff_eq] at hhit
  simp only [clCreateCacheBuffer]
  rw [if_pos ⟨trivial, hhit.1, hhit.2⟩]
  obtain ⟨hmc, hrt, hwt, -, -, -, -, -, -, -, -, hlines⟩ :=
    GetWay_preserves a (GetIndex c.indexBitMask c.addressBitShift a) c
  obtain ⟨-, -, hdev⟩ :=
    getLineI_GetWay_fields a (GetIndex c.indexBitMask c.addressBitShift a) c
      (GetIndex c.indexBitMask c.addressBitShift a)
      ((GetWay a (GetIndex c.indexBitMask c.addressBitShift a) c).1)
  exact ⟨rfl, rfl, hdev, hmc, hwt, hrt, hlines⟩

/-- Claim C1, counterexample: the two-way LRU cache holds address 64 with
handle 7; the lookup reports a hit, and the caller supplies no host content
(no CL_MEM_COPY_HOST_PTR — there is no separate force input in the source,
this flagless call is the claim's "not forcing, no content" case).  Resolve
nevertheless calls the backing store, increments memCopies, and replaces the
line's handle — everything the claim says cannot happen. -/
theorem claim_C1_counterexample :
    lookupReportsHit cacheTWlru1 64 = true ∧
    (clCreateCacheBuffer false 64 (some 9) 0 cacheTWlru1).createCalled = true ∧
    (clCreateCacheBuffer false 64 (some 9) 0 cacheTWlru1).cache.memCopies =
      cacheTWlru1.memCopies + 1 ∧
    (lineAt (clCreateCacheBuffer false 64 (some 9) 0 cacheTWlru1).cache 1 0).deviceData =
      some 9 ∧
    (lineAt cacheTWlru1 1 0).deviceData = some 7 := by decide

/-- Witness for claim C1: the amended theorem applied to the two-way LRU
cache holding address 64. -/
theorem claim_C1_hit_no_mutation_witness :
    lookupReportsHit cacheTWlru1 64 = true ∧
    ((clCreateCacheBuffer true 64 (some 9) 0 cacheTWlru1).createCalled = false ∧
     (clCreateCacheBuffer true 64 (some 9) 0 cacheTWlru1).setWayCalled = false ∧
     (clCreateCacheBuffer true 64 (some 9) 0 cacheTWlru1).ret =
       (getLineI cacheTWlru1
         (GetIndex cacheTWlru1.indexBitMask cacheTWlru1.addressBitShift 64)
         (GetWay 64 (GetIndex cacheTWlru1.indexBitMask cacheTWlru1.addressBitShift 64)
           cacheTWlru1).1).deviceData ∧
     (clCreateCacheBuffer true 64 (some 9) 0 cacheTWlru1).cache.memCopies =
       cacheTWlru1.memCopies ∧
     (clCreateCacheBuffer true 64 (some 9) 0 cacheTWlru1).cache.WriteTransfers =
       cacheTWlru1.WriteTransfers ∧
     (clCreateCacheBuffer true 64 (some 9) 0 cacheTWlru1).cache.ReadTransfers =
       cacheTWlru1.ReadTransfers ∧
     (∀ i j : Nat,
       (lineAt (clCreateCacheBuffer true 64 (some 9) 0 cacheTWlru1).cache i j).valid =
         (lineAt cacheTWlru1 i j).valid ∧
       (lineAt (clCreateCacheBuffer true 64 (some 9) 0 cacheTWlru1).cache i j).tag =
         (lineAt cacheTWlru1 i j).tag ∧
       (lineAt (clCreateCacheBuffer true 64 (some 9) 0 cacheTWlru1).cache i j).deviceData =
         (lineAt cacheTWlru1 i j).deviceData)) :=
  ⟨by decide, claim_C1_hit_no_mutation cacheTWlru1 64 (some 9) 0 (by decide)⟩

/-! ## Claim C2: error propagation from the backing store -/

/-- Claim C2: the claim requires that a failed backing-store call leave all
line state and counters untouched.  The source does the opposite — it never
inspects the outcome: clCreateCacheBuffer stores whatever clCreateBuffer
returned (here a null handle, i.e. a failed create), marks the line valid,
sets the tag and bumps memCopies and WriteTransfers; clEnqueueReadCacheBuffer
assigns clEnqueueReadBuffer's status to a local it never reads (readErr = -5
below), bumps memCopies and ReadTransfers and returns success.  The spec
itself presents the claim as a tightening of this source behaviour, so this
is recorded as a code bug, evaluated here at both failing inputs. -/
theorem claim_C2_counts_despite_failure :
    ((clCreateCacheBuffer true 64 none 0 cacheDM).createCalled = true ∧
     (clCreateCacheBuffer true 64 none 0 cacheDM).cache.memCopies = cacheDM.memCopies + 1 ∧
     (clCreateCacheBuffer true 64 none 0 cacheDM).cache.WriteTransfers =
       cacheDM.WriteTransfers + 1 ∧
     (lineAt cacheDM 1 0).valid = false ∧
     (lineAt (clCreateCacheBuffer true 64 none 0 cacheDM).cache 1 0).valid = true ∧
     (lineAt (clCreateCacheBuffer true 64 none 0 cacheDM).cache 1 0).tag = 64 ∧
     (lineAt (clCreateCacheBuffer true 64 none 0 cacheDM).cache 1 0).deviceData = none) ∧
    ((clEnqueueReadCacheBuffer 64 (-5) cacheTWlru1).ret = 0 ∧
     (clEnqueueReadCacheBuffer 64 (-5) cacheTWlru1).readCalled = true ∧
     (clEnqueueReadCacheBuffer 64 (-5) cacheTWlru1).cache.memCopies =
       cacheTWlru1.memCopies + 1 ∧
     (clEnqueueReadCacheBuffer 64 (-5) cacheTWlru1).cache.ReadTransfers =
       cacheTWlru1.ReadTransfers + 1) := by decide

/-! ## Claim C10: direct-mapped caches never evict through SetWay -/

/-- Claim C10: for a direct-mapped cache, GetWay always returns way 0 and
never Miss (and leaves the cache untouched), so the SetWay evictor is never
invoked by any resolve call; population only ever overwrites way 0 of the
indexed set (every other line is untouched, the cursors never change); and
neither the configured replacement policy nor the per-set cursor contents
influence behaviour — replacing them changes nothing in the outcome beyond
carrying the replaced fields through. -/
theorem claim_C10_direct_mapped (c : Cache_t) (hcfg : c.config = .direct_mapped) :
    (∀ a si : Nat, GetWay a si c = (0, c)) ∧
    (∀ (f : Bool) (a : Nat) (nh : Option Nat) (rv : Nat),
      (clCreateCacheBuffer f a nh rv c).setWayCalled = false) ∧
    (∀ (f : Bool) (a : Nat) (nh : Option Nat) (rv : Nat),
      (clCreateCacheBuffer f a nh rv c).cache.replacementLine = c.replacementLine) ∧
    (∀ (f : Bool) (a : Nat) (nh : Option Nat) (rv : Nat) (i j : Nat),
      ¬(i = GetIndex c.indexBitMask c.addressBitShift a ∧ j = 0) →
      lineAt (clCreateCacheBuffer f a nh rv c).cache i j = lineAt c i j) ∧
    (∀ (f : Bool) (a : Nat) (nh : Option Nat) (rv : Nat)
        (p' : ReplacementPolicy_t) (rl' : List Nat),
      (clCreateCacheBuffer f a nh rv { c with policy := p', replacementLine := rl' }).ret =
        (clCreateCacheBuffer f a nh rv c).ret ∧
      (clCreateCacheBuffer f a nh rv { c with policy := p', replacementLine := rl' }).createCalled =
        (clCreateCacheBuffer f a nh rv c).createCalled ∧
      (clCreateCacheBuffer f a nh rv { c with policy := p', replacementLine := rl' }).cache =
        { (clCreateCacheBuffer f a nh rv c).cache with policy := p', replacementLine := rl' }) := by
  have hGW : ∀ (a si : Nat), GetWay a si c = (0, c) := by
    intro a si
    unfold GetWay
    rw [if_pos hcfg]
  have hGW' : ∀ (p' : ReplacementPolicy_t) (rl' : List Nat) (a si : Nat),
      GetWay a si { c with policy := p', replacementLine := rl' } =
        (0, { c with policy := p', replacementLine := rl' }) := by
    intro p' rl' a si
    unfold GetWay
    rw [if_pos hcfg]
  have h01 : ¬ ((0 : Int) = -1) := by decide
  refine ⟨hGW, ?_, ?_, ?_, ?_⟩
  · intro f a nh rv
    simp only [clCreateCacheBuffer, hGW, if_neg h01]
    split
    · rfl
    · rfl
  · intro f a nh rv
    simp only [clCreateCacheBuffer, hGW, if_neg h01]
    split
    · rfl
    · simp [setLineAt]
  · intro f a nh rv i j hij
    simp only [clCreateCacheBuffer, hGW, if_neg h01]
    split
    · rfl
    · simp only [Int.toNat_zero]
      rw [lineAt_setLineAt, if_neg (fun hc => hij ⟨hc.1.symm, hc.2.2.1.symm⟩)]
      have h2 := lineAt_setLineAt c (GetIndex c.indexBitMask c.addressBitShift a) 0 i j
        (fun l => { l with deviceData := nh })
      rw [if_neg (fun hc => hij ⟨hc.1.symm, hc.2.2.1.symm⟩)] at h2
      exact h2
  · intro f a nh rv p' rl'
    have hgl : getLineI { c with policy := p', replacementLine := rl' }
        (GetIndex c.indexBitMask c.addressBitShift a) 0 =
        getLineI c (GetIndex c.indexBitMask c.addressBitShift a) 0 := rfl
    simp only [clCreateCacheBuffer, hGW, hGW', if_neg h01, hgl]
    by_cases hg : (f = true) ∧
        (getLineI c (GetIndex c.indexBitMask c.addressBitShift a) 0).valid = true ∧
        (getLineI c (GetIndex c.indexBitMask c.addressBitShift a) 0).tag = a
    · rw [if_pos hg, if_pos hg]
      exact ⟨rfl, rfl, rfl⟩
    · rw [if_neg hg, if_neg hg]
      refine ⟨?_, rfl, ?_⟩
      · simp [setLineAt, lineAt]
      · simp [setLineAt, lineAt]

/-- Witness for claim C10: the theorem applied to the fresh direct-mapped
4-line cache. -/
theorem claim_C10_direct_mapped_witness :
    cacheDM.config = .direct_mapped ∧
    ((∀ a si : Nat, GetWay a si cacheDM = (0, cacheDM)) ∧
     (∀ (f : Bool) (a : Nat) (nh : Option Nat) (rv : Nat),
       (clCreateCacheBuffer f a nh rv cacheDM).setWayCalled = false) ∧
     (∀ (f : Bool) (a : Nat) (nh : Option Nat) (rv : Nat),
       (clCreateCacheBuffer f a nh rv cacheDM).cache.replacementLine =
         cacheDM.replacementLine) ∧
     (∀ (f : Bool) (a : Nat) (nh : Option Nat) (rv : Nat) (i j : Nat),
       ¬(i = GetIndex cacheDM.indexBitMask cacheDM.addressBitShift a ∧ j = 0) →
       lineAt (clCreateCacheBuffer f a nh rv cacheDM).cache i j = lineAt cacheDM i j) ∧
     (∀ (f : Bool) (a : Nat) (nh : Option Nat) (rv : Nat)
         (p' : ReplacementPolicy_t) (rl' : List Nat),
       (clCreateCacheBuffer f a nh rv
           { cacheDM with policy := p', replacementLine := rl' }).ret =
         (clCreateCacheBuffer f a nh rv cacheDM).ret ∧
       (clCreateCacheBuffer f a nh rv
           { cacheDM with policy := p', replacementLine := rl' }).createCalled =
         (clCreateCacheBuffer f a nh rv cacheDM).createCalled ∧
       (clCreateCacheBuffer f a nh rv
           { cacheDM with policy := p', replacementLine := rl' }).cache =
         { (clCreateCacheBuffer f a nh rv cacheDM).cache with
             policy := p', replacementLine := rl' })) :=
  ⟨by decide, claim_C10_direct_mapped cacheDM (by decide)⟩

/-! ## Claim C8: counter invariants over operation sequences -/

theorem lookupReportsHit_iff (c : Cache_t) (a : Nat) :
    lookupReportsHit c a = true ↔
      ((getLineI (GetWay a (GetIndex c.indexBitMask c.addressBitShift a) c).2
          (GetIndex c.indexBitMask c.addressBitShift a)
          (GetWay a (GetIndex c.indexBitMask c.addressBitShift a) c).1).valid = true ∧
       (getLineI (GetWay a (GetIndex c.indexBitMask c.addressBitShift a) c).2
          (GetIndex c.indexBitMask c.addressBitShift a)
          (GetWay a (GetIndex c.indexBitMask c.addressBitShift a) c).1).tag = a) := by
  simp [lookupReportsHit, Bool.and_eq_true, beq_iff_eq]

theorem SetWay_counters (si : Nat) (c : Cache_t) (rv : Nat) :
    (SetWay si c rv).2.memCopies = c.memCopies ∧
    (SetWay si c rv).2.ReadTransfers = c.ReadTransfers ∧
    (SetWay si c rv).2.WriteTransfers = c.WriteTransfers := by
  unfold SetWay
  cases hp : c.policy
  case random_RP => cases hf : firstInvalidWay c si <;> simp
  all_goals simp [setLineAt]

theorem resolve_counters (c : Cache_t) (f : Bool) (a : Nat) (nh : Option Nat) (rv : Nat) :
    (clCreateCacheBuffer f a nh rv c).cache.memCopies =
      c.memCopies + (if f = true ∧ lookupReportsHit c a = true then 0 else 1) ∧
    (clCreateCacheBuffer f a nh rv c).cache.WriteTransfers =
      c.WriteTransfers +
        (if f = true ∧ lookupReportsHit c a = true then 0 else if f = true then 1 else 0) ∧
    (clCreateCacheBuffer f a nh rv c).cache.ReadTransfers = c.ReadTransfers := by
  obtain ⟨hmc, hrt, hwt, -, -, -, -, -, -, -, -, -⟩ :=
    GetWay_preserves a (GetIndex c.indexBitMask c.addressBitShift a) c
  by_cases hg : (f = true) ∧
      (getLineI (GetWay a (GetIndex c.indexBitMask c.addressBitShift a) c).2
        (GetIndex c.indexBitMask c.addressBitShift a)
        (GetWay a (GetIndex c.indexBitMask c.addressBitShift a) c).1).valid = true ∧
      (getLineI (GetWay a (GetIndex c.indexBitMask c.addressBitShift a) c).2
        (GetIndex c.indexBitMask c.addressBitShift a)
        (GetWay a (GetIndex c.indexBitMask c.addressBitShift a) c).1).tag = a
  · have hhit : f = true ∧ lookupReportsHit c a = true :=
      ⟨hg.1, (lookupReportsHit_iff c a).mpr ⟨hg.2.1, hg.2.2⟩⟩
    simp only [clCreateCacheBuffer, if_pos hg, if_pos hhit]
    refine ⟨?_, ?_, ?_⟩ <;> simp [hmc, hwt, hrt]
  · have hnhit : ¬(f = true ∧ lookupReportsHit c a = true) := by
      intro hcon
      obtain ⟨hv, ht⟩ := (lookupReportsHit_iff c a).mp hcon.2
      exact hg ⟨hcon.1, hv, ht⟩
    simp only [clCreateCacheBuffer, if_neg hg, if_neg hnhit]
    by_cases hw0 : (GetWay a (GetIndex c.indexBitMask c.addressBitShift a) c).1 = -1
    · obtain ⟨smc, srt, swt⟩ := SetWay_counters (GetIndex c.indexBitMask c.addressBitShift a)
        (GetWay a (GetIndex c.indexBitMask c.addressBitShift a) c).2 rv
      simp only [if_pos hw0]
      refine ⟨?_, ?_, ?_⟩ <;> simp [setLineAt, smc, srt, swt, hmc, hwt, hrt]
    · simp only [if_neg hw0]
      refine ⟨?_, ?_, ?_⟩ <;> simp [setLineAt, hmc, hwt, hrt]

theorem readBack_counters (c : Cache_t) (a : Nat) (e : Int) :
    (clEnqueueReadCacheBuffer a e c).cache.memCopies =
      c.memCopies + (if lookupReportsHit c a = true then 1 else 0) ∧
    (clEnqueueReadCacheBuffer a e c).cache.ReadTransfers =
      c.ReadTransfers + (if lookupReportsHit c a = true then 1 else 0) ∧
    (clEnqueueReadCacheBuffer a e c).cache.WriteTransfers = c.WriteTransfers := by
  obtain ⟨hmc, hrt, hwt, -, -, -, -, -, -, -, -, -⟩ :=
    GetWay_preserves a (GetIndex c.indexBitMask c.addressBitShift a) c
  by_cases hg : (getLineI (GetWay a (GetIndex c.indexBitMask c.addressBitShift a) c).2
        (GetIndex c.indexBitMask c.addressBitShift a)
        (GetWay a (GetIndex c.indexBitMask c.addressBitShift a) c).1).valid = true ∧
      (getLineI (GetWay a (GetIndex c.indexBitMask c.addressBitShift a) c).2
        (GetIndex c.indexBitMask c.addressBitShift a)
        (GetWay a (GetIndex c.indexBitMask c.addressBitShift a) c).1).tag = a
  · have hhit : lookupReportsHit c a = true := (lookupReportsHit_iff c a).mpr hg
    simp only [clEnqueueReadCacheBuffer, if_pos hg, if_pos hhit]
    refine ⟨?_, ?_, ?_⟩ <;> simp [hmc, hrt, hwt]
  · have hnhit : ¬(lookupReportsHit c a = true) := fun hcon =>
      hg ((lookupReportsHit_iff c a).mp hcon)
    simp only [clEnqueueReadCacheBuffer, if_neg hg, if_neg hnhit]
    refine ⟨?_, ?_, ?_⟩ <;> simp [hmc, hrt, hwt]

theorem runOps_counter_inv (ops : List CacheOp) (c : Cache_t)
    (h1 : c.WriteTransfers ≤ c.memCopies) (h2 : c.ReadTransfers ≤ c.memCopies) :
    (runOps c ops).WriteTransfers ≤ (runOps c ops).memCopies ∧
    (runOps c ops).ReadTransfers ≤ (runOps c ops).memCopies := by
  induction ops generalizing c with
  | nil => exact ⟨h1, h2⟩
  | cons op rest ih =>
    have hstep : runOps c (op :: rest) = runOps (stepOp c op) rest := by
      simp [runOps]
    rw [hstep]
    cases op with
    | create f a nh rv =>
      obtain ⟨hmc, hwt, hrt⟩ := resolve_counters c f a nh rv
      refine ih _ ?_ ?_ <;> simp only [stepOp, hmc, hwt, hrt] <;> split_ifs <;> omega
    | read a e =>
      obtain ⟨hmc, hrt, hwt⟩ := readBack_counters c a e
      refine ih _ ?_ ?_ <;> simp only [stepOp, hmc, hwt, hrt] <;> split_ifs <;> omega

/-- Claim C8: over every sequence of resolve and read-back operations from a
freshly constructed cache, writeTransfers ≤ memCopies and
readTransfers ≤ memCopies hold; every counter is non-decreasing across every
single operation; and each operation changes the counters by exactly the
qualifying amount: a resolve not taken on the hit fast path adds exactly 1
to memCopies, and exactly 1 to writeTransfers exactly when host content is
supplied; a read-back adds exactly 1 to memCopies and readTransfers exactly
when the lookup hits.  (The source counts whether or not the backing call
succeeds, so in particular every qualifying successful operation increments
by exactly 1.) -/
theorem claim_C8_counters (n ds ts : Nat) (cfg : CacheConfiguration_t)
    (pol : ReplacementPolicy_t) (ops : List CacheOp) :
    ((runOps (CreateCache n ds ts cfg pol) ops).WriteTransfers ≤
       (runOps (CreateCache n ds ts cfg pol) ops).memCopies ∧
     (runOps (CreateCache n ds ts cfg pol) ops).ReadTransfers ≤
       (runOps (CreateCache n ds ts cfg pol) ops).memCopies) ∧
    (∀ (c : Cache_t) (op : CacheOp),
      c.memCopies ≤ (stepOp c op).memCopies ∧
      c.ReadTransfers ≤ (stepOp c op).ReadTransfers ∧
      c.WriteTransfers ≤ (stepOp c op).WriteTransfers) ∧
    (∀ (c : Cache_t) (f : Bool) (a : Nat) (nh : Option Nat) (rv : Nat),
      (clCreateCacheBuffer f a nh rv c).cache.memCopies =
        c.memCopies + (if f = true ∧ lookupReportsHit c a = true then 0 else 1) ∧
      (clCreateCacheBuffer f a nh rv c).cache.WriteTransfers =
        c.WriteTransfers +
          (if f = true ∧ lookupReportsHit c a = true then 0 else if f = true then 1 else 0) ∧
      (clCreateCacheBuffer f a nh rv c).cache.ReadTransfers = c.ReadTransfers) ∧
    (∀ (c : Cache_t) (a : Nat) (e : Int),
      (clEnqueueReadCacheBuffer a e c).cache.memCopies =
        c.memCopies + (if lookupReportsHit c a = true then 1 else 0) ∧
      (clEnqueueReadCacheBuffer a e c).cache.ReadTransfers =
        c.ReadTransfers + (if lookupReportsHit c a = true then 1 else 0) ∧
      (clEnqueueReadCacheBuffer a e c).cache.WriteTransfers = c.WriteTransfers) := by
  refine ⟨runOps_counter_inv ops (CreateCache n ds ts cfg pol) (Nat.le_refl 0) (Nat.le_refl 0),
    ?_, resolve_counters, readBack_counters⟩
  intro c op
  cases op with
  | create f a nh rv =>
    obtain ⟨hmc, hwt, hrt⟩ := resolve_counters c f a nh rv
    refine ⟨?_, ?_, ?_⟩ <;> simp only [stepOp, hmc, hwt, hrt] <;>
      first
      | (split_ifs <;> omega)
      | omega
  | read a e =>
    obtain ⟨hmc, hrt, hwt⟩ := readBack_counters c a e
    refine ⟨?_, ?_, ?_⟩ <;> simp only [stepOp, hmc, hwt, hrt] <;>
      first
      | (split_ifs <;> omega)
      | omega
